import Mathlib

/-!
Verification of the calculation-layer scheduling and result-aggregation
engine of the property estimator (`propertyestimator/layers/layers.py`).

The embedding models:
  * the per-property result object `CalculationLayerResult`;
  * the request ledger `PropertyEstimatorServerData` (the `data_model`
    threaded through `_await_results`, whose fields `queued_properties`,
    `estimated_properties`, `unsuccessful_properties` and `force_field_id`
    are the ones the aggregator reads and writes);
  * the merge loop `callback_wrapper` inside
    `PropertyCalculationLayer._await_results`, together with the calls it
    makes to the storage backend and to the logger, recorded as an explicit
    event trace;
  * the layer registry `available_layers` / `register_calculation_layer`.

Python dictionaries are modelled as association lists whose insertion
overrides any previous binding for the same key; lookups agree with the
Python dictionary.  Python object payloads that the aggregator never
inspects (property values, error contents, stored-data contents) are
abstracted to small concrete fields so that equality is decidable.
-/

/-- A physical property: the aggregator only reads its `id`; `value`
abstracts the rest of the object's payload. -/
structure PhysicalProperty where
  id : String
  value : Int
deriving DecidableEq, Repr

/-- `PropertyEstimatorException`: the structured error carried by a failed
calculation.  The aggregator treats it opaquely. -/
structure PropertyEstimatorException where
  message : String
deriving DecidableEq, Repr

/-- A substance, of which the aggregator only reads the `identifier`. -/
structure Substance where
  identifier : String
deriving DecidableEq, Repr

/-- `StoredSimulationData`: a reusable calculation artifact, addressed by
substance and (once assigned) force-field id. -/
structure StoredSimulationData where
  substance : Substance
  force_field_id : Option String
deriving DecidableEq, Repr

/-- `CalculationLayerResult` (layers.py lines 35-47): the output of
attempting to calculate one property on a layer.  Every field is
initialised to `None` in the source, hence every field is optional. -/
structure CalculationLayerResult where
  property_id : String
  calculated_property : Option PhysicalProperty
  calculation_error : Option PropertyEstimatorException
  data_to_store : Option (List StoredSimulationData)
deriving DecidableEq, Repr

/-- The request ledger (`PropertyEstimatorServerData`): the fields of the
`data_model` object that `callback_wrapper` reads and mutates. -/
structure PropertyEstimatorServerData where
  queued_properties : List PhysicalProperty
  estimated_properties : List (String × PhysicalProperty)
  unsuccessful_properties : List (String × Option PropertyEstimatorException)
  force_field_id : String
deriving DecidableEq, Repr

/-- Lookup in the association-list model of a Python dictionary. -/
def dictLookup (d : List (String × α)) (k : String) : Option α :=
  (d.find? (fun kv => kv.1 == k)).map (fun kv => kv.2)

/-- Key membership in the association-list model of a Python dictionary. -/
def hasKey (d : List (String × α)) (k : String) : Bool :=
  d.any (fun kv => kv.1 == k)

/-- Assignment `d[k] = v` on the association-list model of a Python
dictionary: the new binding overrides any previous binding of `k`. -/
def dictInsert (d : List (String × α)) (k : String) (v : α) :
    List (String × α) :=
  (k, v) :: d.filter (fun kv => !(kv.1 == k))

/-- The observable calls `callback_wrapper` makes, in program order:
`storage_backend.store_simulation_data` (line 114), the
`logging.info` id-conflict message (line 119), and the final
`callback(returned_data_model)` (line 131). -/
inductive CallbackEvent where
  | storeCall (substance_id : String) (data : StoredSimulationData)
  | idConflictLogged (property_id : String)
  | callbackInvoked (ledger : PropertyEstimatorServerData)
deriving DecidableEq, Repr

/-- Recognises the `callback(returned_data_model)` event. -/
def isCallbackInvoked : CallbackEvent → Bool
  | .callbackInvoked _ => true
  | _ => false

/-- Recognises a storage-backend `store_simulation_data` call. -/
def isStoreCall : CallbackEvent → Bool
  | .storeCall _ _ => true
  | _ => false

/-- Lines 109-110: an artifact lacking a force-field id is assigned the
ledger's `force_field_id` before being stored.  (`force_field_id` is never
written by the aggregator, so reading it from the current ledger state
coincides with reading it from the `data_model` argument.) -/
def assignForceField (ff : String) (d : StoredSimulationData) :
    StoredSimulationData :=
  if d.force_field_id = none then { d with force_field_id := some ff } else d

/-- One iteration of the `for returned_output in results` loop of
`callback_wrapper` (layers.py lines 90-129): returns the updated ledger and
the storage / logging events of this iteration, in program order. -/
def processOutput (ledger : PropertyEstimatorServerData)
    (returned_output : Option CalculationLayerResult) :
    PropertyEstimatorServerData × List CallbackEvent :=
  match returned_output with
  | none =>
      -- line 92: `None` indicates the layer could not calculate this
      -- property; the loop `continue`s.
      (ledger, [])
  | some out =>
      -- lines 104-114: store any important calculation data.
      let storeEvents : List CallbackEvent :=
        match out.data_to_store, out.calculated_property with
        | some datas, some _ =>
            datas.map (fun d =>
              let d2 := assignForceField ledger.force_field_id d
              CallbackEvent.storeCall d2.substance.identifier d2)
        | _, _ => []
      -- line 116: the queued entries whose id matches the output.
      let ms := ledger.queued_properties.filter
        (fun x => x.id == out.property_id)
      -- lines 118-119: a zero or multiple match count is logged.
      let logEvents : List CallbackEvent :=
        if ms.length ≠ 1 then
          [CallbackEvent.idConflictLogged out.property_id]
        else []
      -- lines 121-122: each match is removed from the queued list.
      let queued2 := ms.foldl List.erase ledger.queued_properties
      -- lines 97-102 and 124-129: `return_object` is the error when one is
      -- present, otherwise the calculated property; a `PhysicalProperty`
      -- goes to `estimated_properties` keyed by its own id, anything else
      -- to `unsuccessful_properties` keyed by the output's property id.
      let ledger2 :=
        match out.calculation_error with
        | some err =>
            { ledger with
              queued_properties := queued2,
              unsuccessful_properties :=
                dictInsert ledger.unsuccessful_properties out.property_id
                  (some err) }
        | none =>
            match out.calculated_property with
            | some p =>
                { ledger with
                  queued_properties := queued2,
                  estimated_properties :=
                    dictInsert ledger.estimated_properties p.id p }
            | none =>
                { ledger with
                  queued_properties := queued2,
                  unsuccessful_properties :=
                    dictInsert ledger.unsuccessful_properties out.property_id
                      none }
      (ledger2, storeEvents ++ logEvents)

/-- The whole `for returned_output in results` loop, accumulating the
event trace. -/
def processOutputs (ledger : PropertyEstimatorServerData)
    (results : List (Option CalculationLayerResult)) :
    PropertyEstimatorServerData × List CallbackEvent :=
  results.foldl
    (fun acc out =>
      let step := processOutput acc.1 out
      (step.1, acc.2 ++ step.2))
    (ledger, [])

/-- The ledger produced by the merge loop, without the event trace. -/
def mergeAll (ledger : PropertyEstimatorServerData)
    (results : List (Option CalculationLayerResult)) :
    PropertyEstimatorServerData :=
  results.foldl (fun l out => (processOutput l out).1) ledger

/-- `callback_wrapper` (layers.py lines 85-131): merge every returned
output into the ledger, then invoke the caller-supplied callback with the
merged ledger.  `returned_data_model` is the ledger threaded through the
`return_args` barrier task. -/
def callback_wrapper (returned_data_model : PropertyEstimatorServerData)
    (results : List (Option CalculationLayerResult)) :
    PropertyEstimatorServerData × List CallbackEvent :=
  let folded := processOutputs returned_data_model results
  (folded.1, folded.2 ++ [CallbackEvent.callbackInvoked folded.1])

/-- The observable outcome of `_await_results` (layers.py lines 133-136):
in synchronous mode `callback_wrapper` runs inline before the call
returns; in asynchronous mode it is registered on the barrier future via
`add_done_callback`, and `pendingTrace` is the trace its eventual
execution will produce. -/
inductive AwaitOutcome where
  | completed (ledger : PropertyEstimatorServerData)
      (trace : List CallbackEvent)
  | callbackRegistered (pendingTrace : List CallbackEvent)
deriving DecidableEq, Repr

/-- `PropertyCalculationLayer._await_results`: the barrier task packages
the data model with the per-property results, and `callback_wrapper` is
either run inline (synchronous) or registered (asynchronous). -/
def await_results (data_model : PropertyEstimatorServerData)
    (results : List (Option CalculationLayerResult))
    (synchronous : Bool) : AwaitOutcome :=
  if synchronous then
    AwaitOutcome.completed (callback_wrapper data_model results).1
      (callback_wrapper data_model results).2
  else
    AwaitOutcome.callbackRegistered (callback_wrapper data_model results).2

/-- A calculation-layer class: registered under its class name
(`cls.__name__`); `tag` abstracts the class identity so that two distinct
classes may share a name. -/
structure CalculationLayerClass where
  name : String
  tag : Nat
deriving DecidableEq, Repr

/-- `register_calculation_layer` (layers.py lines 15-28) applied to one
class: raises `ValueError` (returned as `some` message) when the name is
already registered, leaving the registry untouched; otherwise binds the
class under its name. -/
def register_calculation_layer
    (available_layers : List (String × CalculationLayerClass))
    (cls : CalculationLayerClass) :
    List (String × CalculationLayerClass) × Option String :=
  if hasKey available_layers cls.name then
    (available_layers,
      some ("The " ++ cls.name ++ " layer is already registered."))
  else
    (dictInsert available_layers cls.name cls, none)

/-- Keys of two dictionary models are disjoint. -/
def keysDisjoint (d₁ : List (String × α)) (d₂ : List (String × β)) : Bool :=
  d₁.all (fun kv => !(hasKey d₂ kv.1))

/-- The property ids of the outputs that are not `None` (Not-applicable):
the ids the merge loop resolves. -/
def resolvedIds (results : List (Option CalculationLayerResult)) :
    List String :=
  results.filterMap (fun o => o.map (fun r => r.property_id))

/-- A `Computed` output: no calculation error and a calculated property. -/
def isComputedOutcome (r : CalculationLayerResult) : Bool :=
  r.calculation_error.isNone && r.calculated_property.isSome

/-- The keys inserted into `estimated_properties` by the merge loop: for a
`Computed` output the key is the calculated property's own id. -/
def computedKeys (results : List (Option CalculationLayerResult)) :
    List String :=
  results.filterMap (fun o =>
    match o with
    | some r =>
        match r.calculation_error, r.calculated_property with
        | none, some p => some p.id
        | _, _ => none
    | none => none)

/-- The keys inserted into `unsuccessful_properties` by the merge loop:
the property ids of the non-`None` outputs that are not `Computed`. -/
def failedIds (results : List (Option CalculationLayerResult)) :
    List String :=
  results.filterMap (fun o =>
    match o with
    | some r =>
        match r.calculation_error, r.calculated_property with
        | none, some _ => none
        | _, _ => some r.property_id
    | none => none)

/-- The ids of the queued entries of a ledger. -/
def inQueuedIds (l : PropertyEstimatorServerData) (k : String) : Bool :=
  l.queued_properties.any (fun x => x.id == k)

/-- A well-formed outcome for the queued property `p`, per the layer
contract of the specification: a non-`None` outcome carries `p`'s id, is
`Computed` or `Failed` (not field-free), and a computed property carries
the id of the property it was computed for. -/
def wellFormedOutcome (p : PhysicalProperty)
    (o : Option CalculationLayerResult) : Bool :=
  match o with
  | none => true
  | some r =>
      r.property_id == p.id &&
      (r.calculation_error.isSome || r.calculated_property.isSome) &&
      (match r.calculated_property with
       | some q => q.id == p.id
       | none => true)

/-- The placement the claim demands for queued property `p` with outcome
`o` in the post-merge ledger `final`: in exactly one of the queued list
(iff Not-applicable), the estimated map (iff Computed) or the
unsuccessful map (iff Failed). -/
def resolvedCorrectly (final : PropertyEstimatorServerData)
    (p : PhysicalProperty) (o : Option CalculationLayerResult) : Bool :=
  match o with
  | none =>
      inQueuedIds final p.id &&
      !(hasKey final.estimated_properties p.id) &&
      !(hasKey final.unsuccessful_properties p.id)
  | some r =>
      if isComputedOutcome r then
        !(inQueuedIds final p.id) &&
        hasKey final.estimated_properties p.id &&
        !(hasKey final.unsuccessful_properties p.id)
      else
        !(inQueuedIds final p.id) &&
        !(hasKey final.estimated_properties p.id) &&
        hasKey final.unsuccessful_properties p.id

/-- A ledger queueing the single property `p1`. -/
def c3Ledger : PropertyEstimatorServerData :=
  { queued_properties := [{ id := "p1", value := 1 }],
    estimated_properties := [],
    unsuccessful_properties := [],
    force_field_id := "ff" }

/-- A Computed outcome whose `property_id` is `p1` but whose calculated
property carries the id `p2`. -/
def c3Out : CalculationLayerResult :=
  { property_id := "p1",
    calculated_property := some { id := "p2", value := 5 },
    calculation_error := none,
    data_to_store := none }

/-- A ledger with force field `ff-42` queueing the single property `p1`. -/
def c6Ledger : PropertyEstimatorServerData :=
  { queued_properties := [{ id := "p1", value := 1 }],
    estimated_properties := [],
    unsuccessful_properties := [],
    force_field_id := "ff-42" }

/-- A Computed outcome for `p1` carrying one artifact that lacks a
force-field id. -/
def c6Out : CalculationLayerResult :=
  { property_id := "p1",
    calculated_property := some { id := "p1", value := 5 },
    calculation_error := none,
    data_to_store := some [{ substance := { identifier := "sub-1" },
                             force_field_id := none }] }

/-- A ledger queueing one property that the outcome below does not
match. -/
def c7Ledger : PropertyEstimatorServerData :=
  { queued_properties := [{ id := "p1", value := 1 }],
    estimated_properties := [],
    unsuccessful_properties := [],
    force_field_id := "ff" }

/-- A Failed outcome for a property id that is not queued. -/
def c7Out : CalculationLayerResult :=
  { property_id := "p9",
    calculated_property := none,
    calculation_error := some { message := "boom" },
    data_to_store := none }

/-- A ledger whose only queued property does not match the outcome below. -/
def c10Ledger : PropertyEstimatorServerData :=
  { queued_properties := [{ id := "other", value := 0 }],
    estimated_properties := [],
    unsuccessful_properties := [],
    force_field_id := "ff" }

/-- A Failed outcome for a property id that is not queued. -/
def c10Out : CalculationLayerResult :=
  { property_id := "p9",
    calculated_property := none,
    calculation_error := some { message := "boom" },
    data_to_store := none }

/-- An outcome carrying both a calculation error and a calculated
property, together with one artifact. -/
def c9Out : CalculationLayerResult :=
  { property_id := "p1",
    calculated_property := some { id := "p1", value := 5 },
    calculation_error := some { message := "late failure" },
    data_to_store := some [{ substance := { identifier := "sub-1" },
                             force_field_id := none }] }

/-- A three-property batch over an otherwise empty ledger. -/
def c1Ledger : PropertyEstimatorServerData :=
  { queued_properties := [{ id := "p1", value := 1 },
                          { id := "p2", value := 2 },
                          { id := "p3", value := 3 }],
    estimated_properties := [],
    unsuccessful_properties := [],
    force_field_id := "ff" }

/-- One well-formed outcome per queued property: `p1` Computed, `p2`
Failed, `p3` Not-applicable. -/
def c1Outcomes : PhysicalProperty → Option CalculationLayerResult :=
  fun p =>
    if p.id == "p1" then
      some { property_id := "p1",
             calculated_property := some { id := "p1", value := 5 },
             calculation_error := none,
             data_to_store := none }
    else if p.id == "p2" then
      some { property_id := "p2",
             calculated_property := none,
             calculation_error := some { message := "timeout" },
             data_to_store := none }
    else none

theorem hasKey_iff_exists (d : List (String × α)) (k : String) :
    hasKey d k = true ↔ ∃ kv, kv ∈ d ∧ kv.1 = k := by
  simp [hasKey, List.any_eq_true]

theorem keysDisjoint_iff (d₁ : List (String × α)) (d₂ : List (String × β)) :
    keysDisjoint d₁ d₂ = true ↔
      ∀ k, hasKey d₁ k = true → hasKey d₂ k = false := by
  simp only [keysDisjoint, List.all_eq_true, Bool.not_eq_true']
  constructor
  · intro h k hk
    obtain ⟨kv, hkv, hk1⟩ := (hasKey_iff_exists d₁ k).mp hk
    exact hk1 ▸ h kv hkv
  · intro h kv hkv
    exact h kv.1 ((hasKey_iff_exists d₁ kv.1).mpr ⟨kv, hkv, rfl⟩)

theorem hasKey_dictInsert (d : List (String × α)) (k k' : String) (v : α) :
    hasKey (dictInsert d k v) k' = true ↔ k' = k ∨ hasKey d k' = true := by
  simp only [dictInsert, hasKey, List.any_cons, List.any_eq_true,
    Bool.or_eq_true, beq_iff_eq, List.mem_filter, Bool.not_eq_true',
    beq_eq_false_iff_ne]
  constructor
  · rintro (h | ⟨kv, ⟨hkv, _⟩, hk⟩)
    · exact Or.inl h.symm
    · exact Or.inr ⟨kv, hkv, hk⟩
  · rintro (h | ⟨kv, hkv, hk⟩)
    · exact Or.inl h.symm
    · by_cases hkk : k' = k
      · exact Or.inl hkk.symm
      · exact Or.inr ⟨kv, ⟨hkv, by rw [hk]; exact hkk⟩, hk⟩

theorem dictLookup_dictInsert_self (d : List (String × α)) (k : String)
    (v : α) : dictLookup (dictInsert d k v) k = some v := by
  simp [dictLookup, dictInsert, List.find?_cons_of_pos]

/-- Erasing (in order) a run of elements that all satisfy `p` never touches
a head that does not satisfy `p`. -/
theorem foldl_erase_cons_of_not {α : Type} [DecidableEq α] (p : α → Bool) :
    ∀ (m : List α) (x : α) (l : List α), (∀ y ∈ m, p y = true) →
      p x = false → m.foldl List.erase (x :: l) = x :: m.foldl List.erase l := by
  intro m
  induction m with
  | nil => intro x l _ _; rfl
  | cons a m ih =>
    intro x l hm hx
    have hax : x ≠ a := by
      intro h
      rw [← h] at hm
      rw [hm x (by simp)] at hx
      simp at hx
    have hstep : (x :: l).erase a = x :: l.erase a :=
      List.erase_cons_tail (by simp [hax])
    simp only [List.foldl_cons, hstep]
    exact ih x (l.erase a) (fun y hy => hm y (by simp [hy])) hx

/-- The loop `for match in matches: queued.remove(match)` (layers.py lines
121-122), with `matches = [x for x in queued if x.id == pid]`, removes
exactly the matching entries: the result is the filter of the
non-matching ones. -/
theorem filter_foldl_erase {α : Type} [DecidableEq α] (p : α → Bool)
    (l : List α) :
    (l.filter p).foldl List.erase l = l.filter (fun x => !(p x)) := by
  induction l with
  | nil => rfl
  | cons x t ih =>
    by_cases hx : p x = true
    · rw [List.filter_cons_of_pos hx]
      simp only [List.foldl_cons, List.erase_cons_head]
      rw [ih, List.filter_cons_of_neg (by simp [hx])]
    · have hx' : p x = false := by simpa using hx
      rw [List.filter_cons_of_neg (by simp [hx']),
        foldl_erase_cons_of_not p (t.filter p) x t
          (fun y hy => (List.mem_filter.mp hy).2) hx',
        ih, List.filter_cons_of_pos (by simp [hx'])]

/-- When exactly one entry matches, removing the matches coincides with a
single `List.erase` of that entry. -/
theorem filter_not_eq_erase_of_filter_singleton {α : Type} [DecidableEq α]
    (p : α → Bool) (l : List α) (m : α) (h : l.filter p = [m]) :
    l.filter (fun x => !(p x)) = l.erase m := by
  induction l with
  | nil => simp at h
  | cons x t ih =>
    by_cases hx : p x = true
    · rw [List.filter_cons_of_pos hx] at h
      have hxm : x = m := by
        have := List.head_eq_of_cons_eq h
        exact this
      have ht : t.filter p = [] := List.tail_eq_of_cons_eq h
      have hall : ∀ a ∈ t, ¬(p a = true) := by
        intro a ha
        exact (List.filter_eq_nil_iff.mp ht) a ha
      rw [List.filter_cons_of_neg (by simp [hx]), hxm,
        List.erase_cons_head]
      exact List.filter_eq_self.mpr (fun a ha => by simp [hall a ha])
    · have hx' : p x = false := by simpa using hx
      rw [List.filter_cons_of_neg (by simp [hx'])] at h
      have hm : m ∈ t.filter p := by rw [h]; simp
      have hpm : p m = true := (List.mem_filter.mp hm).2
      have hxm : x ≠ m := by
        intro he; rw [he, hpm] at hx'; simp at hx'
      rw [List.filter_cons_of_pos (by simp [hx']),
        List.erase_cons_tail (by simp [hxm]), ih h]

theorem processOutput_none (l : PropertyEstimatorServerData) :
    processOutput l none = (l, []) := rfl

theorem processOutput_queued (l : PropertyEstimatorServerData)
    (out : CalculationLayerResult) :
    (processOutput l (some out)).1.queued_properties =
      l.queued_properties.filter (fun x => !(x.id == out.property_id)) := by
  cases he : out.calculation_error <;> cases hp : out.calculated_property <;>
    simp [processOutput, he, hp, filter_foldl_erase]

theorem processOutput_estimated_computed (l : PropertyEstimatorServerData)
    (out : CalculationLayerResult) (p : PhysicalProperty)
    (he : out.calculation_error = none)
    (hp : out.calculated_property = some p) :
    (processOutput l (some out)).1.estimated_properties =
      dictInsert l.estimated_properties p.id p := by
  simp [processOutput, he, hp]

theorem processOutput_estimated_not_computed (l : PropertyEstimatorServerData)
    (out : CalculationLayerResult)
    (h : out.calculation_error ≠ none ∨ out.calculated_property = none) :
    (processOutput l (some out)).1.estimated_properties =
      l.estimated_properties := by
  cases he : out.calculation_error with
  | some e => simp [processOutput, he]
  | none =>
    rcases h with h | h
    · exact absurd he h
    · simp [processOutput, he, h]

theorem processOutput_unsuccessful_not_computed
    (l : PropertyEstimatorServerData) (out : CalculationLayerResult)
    (h : out.calculation_error ≠ none ∨ out.calculated_property = none) :
    (processOutput l (some out)).1.unsuccessful_properties =
      dictInsert l.unsuccessful_properties out.property_id
        out.calculation_error := by
  cases he : out.calculation_error with
  | some e => simp [processOutput, he]
  | none =>
    rcases h with h | h
    · exact absurd he h
    · simp [processOutput, he, h]

theorem processOutput_unsuccessful_computed (l : PropertyEstimatorServerData)
    (out : CalculationLayerResult) (p : PhysicalProperty)
    (he : out.calculation_error = none)
    (hp : out.calculated_property = some p) :
    (processOutput l (some out)).1.unsuccessful_properties =
      l.unsuccessful_properties := by
  simp [processOutput, he, hp]

theorem processOutput_force_field (l : PropertyEstimatorServerData)
    (o : Option CalculationLayerResult) :
    (processOutput l o).1.force_field_id = l.force_field_id := by
  cases o with
  | none => rfl
  | some out =>
    cases he : out.calculation_error <;> cases hp : out.calculated_property <;>
      simp [processOutput, he, hp]

/-- None of the events emitted by a single loop iteration is the final
callback invocation. -/
theorem processOutput_trace_no_callback (l : PropertyEstimatorServerData)
    (o : Option CalculationLayerResult) :
    ∀ e ∈ (processOutput l o).2, isCallbackInvoked e = false := by
  intro e he
  cases o with
  | none => simp [processOutput] at he
  | some out =>
    have he2 : e ∈ (processOutput l (some out)).2 := he
    rw [show (processOutput l (some out)).2 =
        (match out.data_to_store, out.calculated_property with
          | some datas, some _ =>
              datas.map (fun d =>
                let d2 := assignForceField l.force_field_id d
                CallbackEvent.storeCall d2.substance.identifier d2)
          | _, _ => []) ++
        (if (l.queued_properties.filter
              (fun x => x.id == out.property_id)).length ≠ 1 then
            [CallbackEvent.idConflictLogged out.property_id]
          else []) from by
      cases hel : out.calculation_error <;>
        cases hpl : out.calculated_property <;>
        cases hdl : out.data_to_store <;>
        simp [processOutput, hel, hpl, hdl]] at he2
    rcases List.mem_append.mp he2 with hm | hm
    · cases hd : out.data_to_store <;> cases hp : out.calculated_property <;>
        rw [hd, hp] at hm <;> simp at hm
      obtain ⟨d, _, hde⟩ := hm
      rw [← hde]; rfl
    · by_cases hc : (l.queued_properties.filter
          (fun x => x.id == out.property_id)).length ≠ 1 <;>
        simp [hc] at hm
      rw [hm]; rfl

theorem mergeAll_nil (l : PropertyEstimatorServerData) : mergeAll l [] = l :=
  rfl

theorem mergeAll_cons (l : PropertyEstimatorServerData)
    (o : Option CalculationLayerResult)
    (os : List (Option CalculationLayerResult)) :
    mergeAll l (o :: os) = mergeAll (processOutput l o).1 os := rfl

theorem mergeAll_append (l : PropertyEstimatorServerData)
    (a b : List (Option CalculationLayerResult)) :
    mergeAll l (a ++ b) = mergeAll (mergeAll l a) b := by
  simp [mergeAll, List.foldl_append]

theorem processOutputs_nil (l : PropertyEstimatorServerData) :
    processOutputs l [] = (l, []) := rfl

theorem processOutputs_acc (rs : List (Option CalculationLayerResult)) :
    ∀ (l : PropertyEstimatorServerData) (evs : List CallbackEvent),
      rs.foldl
        (fun acc out =>
          let step := processOutput acc.1 out
          (step.1, acc.2 ++ step.2))
        (l, evs) =
      ((processOutputs l rs).1, evs ++ (processOutputs l rs).2) := by
  induction rs with
  | nil => intro l evs; simp [processOutputs]
  | cons o os ih =>
    intro l evs
    simp only [List.foldl_cons]
    rw [ih]
    have h2 := ih (processOutput l o).1 (processOutput l o).2
    have h3 : processOutputs l (o :: os) =
        ((processOutputs (processOutput l o).1 os).1,
          (processOutput l o).2 ++ (processOutputs (processOutput l o).1 os).2) := by
      simp only [processOutputs, List.foldl_cons]
      exact h2
    rw [h3]
    simp [List.append_assoc]

theorem processOutputs_cons (l : PropertyEstimatorServerData)
    (o : Option CalculationLayerResult)
    (os : List (Option CalculationLayerResult)) :
    processOutputs l (o :: os) =
      ((processOutputs (processOutput l o).1 os).1,
        (processOutput l o).2 ++
          (processOutputs (processOutput l o).1 os).2) := by
  simp only [processOutputs, List.foldl_cons]
  exact processOutputs_acc os (processOutput l o).1 (processOutput l o).2

theorem processOutputs_fst (rs : List (Option CalculationLayerResult)) :
    ∀ l : PropertyEstimatorServerData,
      (processOutputs l rs).1 = mergeAll l rs := by
  induction rs with
  | nil => intro l; rfl
  | cons o os ih =>
    intro l
    rw [processOutputs_cons, mergeAll_cons]
    exact ih (processOutput l o).1

theorem processOutputs_append (l : PropertyEstimatorServerData)
    (a b : List (Option CalculationLayerResult)) :
    (processOutputs l (a ++ b)).2 =
      (processOutputs l a).2 ++ (processOutputs (mergeAll l a) b).2 := by
  induction a generalizing l with
  | nil => simp [processOutputs_nil, mergeAll_nil]
  | cons o os ih =>
    rw [List.cons_append, processOutputs_cons, processOutputs_cons,
      mergeAll_cons]
    simp [ih, List.append_assoc]

/-- No iteration of the merge loop invokes the caller's callback. -/
theorem processOutputs_trace_no_callback
    (rs : List (Option CalculationLayerResult)) :
    ∀ l : PropertyEstimatorServerData,
      ∀ e ∈ (processOutputs l rs).2, isCallbackInvoked e = false := by
  induction rs with
  | nil => intro l e he; simp [processOutputs_nil] at he
  | cons o os ih =>
    intro l e he
    rw [processOutputs_cons] at he
    rcases List.mem_append.mp he with hm | hm
    · exact processOutput_trace_no_callback l o e hm
    · exact ih (processOutput l o).1 e hm

theorem callback_wrapper_fst (l : PropertyEstimatorServerData)
    (rs : List (Option CalculationLayerResult)) :
    (callback_wrapper l rs).1 = mergeAll l rs := by
  simp [callback_wrapper, processOutputs_fst]

theorem callback_wrapper_trace (l : PropertyEstimatorServerData)
    (rs : List (Option CalculationLayerResult)) :
    (callback_wrapper l rs).2 =
      (processOutputs l rs).2 ++
        [CallbackEvent.callbackInvoked (mergeAll l rs)] := by
  simp [callback_wrapper, processOutputs_fst]

theorem mergeAll_mem_queued (results : List (Option CalculationLayerResult)) :
    ∀ (l : PropertyEstimatorServerData) (x : PhysicalProperty),
      x ∈ (mergeAll l results).queued_properties ↔
        x ∈ l.queued_properties ∧ x.id ∉ resolvedIds results := by
  induction results with
  | nil => intro l x; simp [mergeAll_nil, resolvedIds]
  | cons o os ih =>
    intro l x
    rw [mergeAll_cons, ih]
    cases o with
    | none => simp [processOutput_none, resolvedIds, List.filterMap_cons]
    | some out =>
      have hq := processOutput_queued l out
      rw [hq]
      have hres : resolvedIds (some out :: os) =
          out.property_id :: resolvedIds os := by
        simp [resolvedIds, List.filterMap_cons]
      rw [hres]
      simp only [List.mem_filter, Bool.not_eq_true', beq_eq_false_iff_ne,
        List.mem_cons]
      constructor
      · rintro ⟨⟨hx, hne⟩, hnot⟩
        exact ⟨hx, by rintro (h | h); exact hne h; exact hnot h⟩
      · rintro ⟨hx, hnot⟩
        exact ⟨⟨hx, fun h => hnot (Or.inl h)⟩, fun h => hnot (Or.inr h)⟩

theorem mergeAll_hasKey_estimated
    (results : List (Option CalculationLayerResult)) :
    ∀ (l : PropertyEstimatorServerData) (k : String),
      hasKey (mergeAll l results).estimated_properties k = true ↔
        hasKey l.estimated_properties k = true ∨ k ∈ computedKeys results := by
  induction results with
  | nil => intro l k; simp [mergeAll_nil, computedKeys]
  | cons o os ih =>
    intro l k
    rw [mergeAll_cons, ih]
    cases o with
    | none => simp [processOutput_none, computedKeys, List.filterMap_cons]
    | some out =>
      cases he : out.calculation_error with
      | some e =>
        rw [processOutput_estimated_not_computed l out (Or.inl (by simp [he]))]
        have : computedKeys (some out :: os) = computedKeys os := by
          simp [computedKeys, List.filterMap_cons, he]
        rw [this]
      | none =>
        cases hp : out.calculated_property with
        | none =>
          rw [processOutput_estimated_not_computed l out (Or.inr hp)]
          have : computedKeys (some out :: os) = computedKeys os := by
            simp [computedKeys, List.filterMap_cons, he, hp]
          rw [this]
        | some p =>
          rw [processOutput_estimated_computed l out p he hp]
          have hck : computedKeys (some out :: os) =
              p.id :: computedKeys os := by
            simp [computedKeys, List.filterMap_cons, he, hp]
          rw [hck]
          rw [hasKey_dictInsert]
          simp only [List.mem_cons]
          tauto

theorem mergeAll_hasKey_unsuccessful
    (results : List (Option CalculationLayerResult)) :
    ∀ (l : PropertyEstimatorServerData) (k : String),
      hasKey (mergeAll l results).unsuccessful_properties k = true ↔
        hasKey l.unsuccessful_properties k = true ∨ k ∈ failedIds results := by
  induction results with
  | nil => intro l k; simp [mergeAll_nil, failedIds]
  | cons o os ih =>
    intro l k
    rw [mergeAll_cons, ih]
    cases o with
    | none => simp [processOutput_none, failedIds, List.filterMap_cons]
    | some out =>
      cases he : out.calculation_error with
      | some e =>
        rw [processOutput_unsuccessful_not_computed l out
          (Or.inl (by simp [he]))]
        have hfk : failedIds (some out :: os) =
            out.property_id :: failedIds os := by
          simp [failedIds, List.filterMap_cons, he]
        rw [hfk, hasKey_dictInsert]
        simp only [List.mem_cons]
        tauto
      | none =>
        cases hp : out.calculated_property with
        | none =>
          rw [processOutput_unsuccessful_not_computed l out (Or.inr hp)]
          have hfk : failedIds (some out :: os) =
              out.property_id :: failedIds os := by
            simp [failedIds, List.filterMap_cons, he, hp]
          rw [hfk, hasKey_dictInsert]
          simp only [List.mem_cons]
          tauto
        | some p =>
          rw [processOutput_unsuccessful_computed l out p he hp]
          have : failedIds (some out :: os) = failedIds os := by
            simp [failedIds, List.filterMap_cons, he, hp]
          rw [this]

theorem mem_resolvedIds_map (batch : List PhysicalProperty)
    (f : PhysicalProperty → Option CalculationLayerResult) (k : String) :
    k ∈ resolvedIds (batch.map f) ↔
      ∃ p, p ∈ batch ∧ ∃ r, f p = some r ∧ r.property_id = k := by
  simp only [resolvedIds, List.mem_filterMap, List.mem_map]
  constructor
  · rintro ⟨o, ⟨p, hp, rfl⟩, hg⟩
    cases hf : f p with
    | none => rw [hf] at hg; simp at hg
    | some r =>
      rw [hf] at hg
      simp only [Option.map_some'] at hg
      exact ⟨p, hp, r, hf, Option.some.inj hg⟩
  · rintro ⟨p, hp, r, hf, hk⟩
    exact ⟨f p, ⟨p, hp, rfl⟩, by rw [hf]; simpa using hk⟩

theorem mem_computedKeys_map (batch : List PhysicalProperty)
    (f : PhysicalProperty → Option CalculationLayerResult) (k : String) :
    k ∈ computedKeys (batch.map f) ↔
      ∃ p, p ∈ batch ∧ ∃ r q, f p = some r ∧ r.calculation_error = none ∧
        r.calculated_property = some q ∧ q.id = k := by
  simp only [computedKeys, List.mem_filterMap, List.mem_map]
  constructor
  · rintro ⟨o, ⟨p, hp, rfl⟩, hg⟩
    cases hf : f p with
    | none => rw [hf] at hg; simp at hg
    | some r =>
      rw [hf] at hg
      have hg2 : (match r.calculation_error, r.calculated_property with
          | none, some q => some q.id
          | _, _ => none) = some k := hg
      cases he : r.calculation_error with
      | some e => rw [he] at hg2; simp at hg2
      | none =>
        cases hq : r.calculated_property with
        | none => rw [he, hq] at hg2; simp at hg2
        | some q =>
          rw [he, hq] at hg2
          simp only at hg2
          exact ⟨p, hp, r, q, hf, he, hq, Option.some.inj hg2⟩
  · rintro ⟨p, hp, r, q, hf, he, hq, hk⟩
    refine ⟨f p, ⟨p, hp, rfl⟩, ?_⟩
    rw [hf]
    simp [he, hq, hk]

theorem mem_failedIds_map (batch : List PhysicalProperty)
    (f : PhysicalProperty → Option CalculationLayerResult) (k : String) :
    k ∈ failedIds (batch.map f) ↔
      ∃ p, p ∈ batch ∧ ∃ r, f p = some r ∧
        (r.calculation_error ≠ none ∨ r.calculated_property = none) ∧
        r.property_id = k := by
  simp only [failedIds, List.mem_filterMap, List.mem_map]
  constructor
  · rintro ⟨o, ⟨p, hp, rfl⟩, hg⟩
    cases hf : f p with
    | none => rw [hf] at hg; simp at hg
    | some r =>
      rw [hf] at hg
      have hg2 : (match r.calculation_error, r.calculated_property with
          | none, some _ => none
          | _, _ => some r.property_id) = some k := hg
      cases he : r.calculation_error with
      | some e =>
        rw [he] at hg2
        simp only at hg2
        exact ⟨p, hp, r, hf, Or.inl (by simp [he]),
          Option.some.inj hg2⟩
      | none =>
        cases hq : r.calculated_property with
        | some q => rw [he, hq] at hg2; simp at hg2
        | none =>
          rw [he, hq] at hg2
          simp only at hg2
          exact ⟨p, hp, r, hf, Or.inr hq, Option.some.inj hg2⟩
  · rintro ⟨p, hp, r, hf, hc, hk⟩
    refine ⟨f p, ⟨p, hp, rfl⟩, ?_⟩
    rw [hf]
    rcases hc with hc | hc
    · cases he : r.calculation_error with
      | none => exact absurd he hc
      | some e => simp [he, hk]
    · cases he : r.calculation_error with
      | none => simp [he, hc, hk]
      | some e => simp [he, hk]

theorem inQueuedIds_iff (l : PropertyEstimatorServerData) (k : String) :
    inQueuedIds l k = true ↔ ∃ x, x ∈ l.queued_properties ∧ x.id = k := by
  simp [inQueuedIds, List.any_eq_true]

theorem wellFormedOutcome_pid {p : PhysicalProperty}
    {r : CalculationLayerResult}
    (h : wellFormedOutcome p (some r) = true) : r.property_id = p.id := by
  simp only [wellFormedOutcome, Bool.and_eq_true, beq_iff_eq] at h
  exact h.1.1

theorem wellFormedOutcome_nontrivial {p : PhysicalProperty}
    {r : CalculationLayerResult}
    (h : wellFormedOutcome p (some r) = true) :
    r.calculation_error ≠ none ∨ r.calculated_property ≠ none := by
  simp only [wellFormedOutcome, Bool.and_eq_true, Bool.or_eq_true,
    Option.isSome_iff_ne_none] at h
  exact h.1.2

theorem wellFormedOutcome_prop_id {p : PhysicalProperty}
    {r : CalculationLayerResult} {q : PhysicalProperty}
    (h : wellFormedOutcome p (some r) = true)
    (hq : r.calculated_property = some q) : q.id = p.id := by
  simp only [wellFormedOutcome, Bool.and_eq_true, beq_iff_eq] at h
  have h2 := h.2
  rw [hq] at h2
  have h3 : (q.id == p.id) = true := h2
  simpa using h3

theorem isComputedOutcome_false_iff (r : CalculationLayerResult) :
    isComputedOutcome r = false ↔
      (r.calculation_error ≠ none ∨ r.calculated_property = none) := by
  cases he : r.calculation_error <;> cases hq : r.calculated_property <;>
    simp [isComputedOutcome, he, hq]

/-- C1: for a batch with pairwise-distinct ids and one well-formed outcome
per queued property, the merged ledger places every batch id in exactly
one of queued (iff the outcome was Not-applicable), estimated (iff
Computed) or unsuccessful (iff Failed), and no key is in both estimated
and unsuccessful. -/
theorem merged_batch_partition
    (l : PropertyEstimatorServerData)
    (f : PhysicalProperty → Option CalculationLayerResult)
    (hnd : (l.queued_properties.map (fun p => p.id)).Nodup)
    (hwf : ∀ p ∈ l.queued_properties, wellFormedOutcome p (f p) = true)
    (hfresh : ∀ p ∈ l.queued_properties,
      hasKey l.estimated_properties p.id = false ∧
      hasKey l.unsuccessful_properties p.id = false)
    (hdisj : keysDisjoint l.estimated_properties
      l.unsuccessful_properties = true) :
    (∀ p ∈ l.queued_properties,
      resolvedCorrectly (mergeAll l (l.queued_properties.map f)) p (f p)
        = true) ∧
    keysDisjoint
      (mergeAll l (l.queued_properties.map f)).estimated_properties
      (mergeAll l (l.queued_properties.map f)).unsuccessful_properties
      = true := by
  have bfalse : ∀ b : Bool, ¬(b = true) → b = false := by decide
  have inj : ∀ p ∈ l.queued_properties, ∀ p' ∈ l.queued_properties,
      p.id = p'.id → p = p' := by
    intro p hp p' hp' h
    exact List.inj_on_of_nodup_map hnd hp hp' h
  have hres : ∀ p ∈ l.queued_properties,
      (p.id ∈ resolvedIds (l.queued_properties.map f) ↔ f p ≠ none) := by
    intro p hp
    constructor
    · intro hmem
      obtain ⟨p', hp', r, hfp', hrid⟩ :=
        (mem_resolvedIds_map _ f _).mp hmem
      have hw := hwf p' hp'
      rw [hfp'] at hw
      have h2 : p'.id = p.id := by
        rw [← wellFormedOutcome_pid hw]; exact hrid
      have hpp : p' = p := inj p' hp' p hp h2
      rw [← hpp, hfp']
      simp
    · intro hne
      cases hfp : f p with
      | none => exact absurd hfp hne
      | some r =>
        have hw := hwf p hp
        rw [hfp] at hw
        exact (mem_resolvedIds_map _ f _).mpr
          ⟨p, hp, r, hfp, wellFormedOutcome_pid hw⟩
  have hcomp : ∀ p ∈ l.queued_properties,
      (p.id ∈ computedKeys (l.queued_properties.map f) ↔
        ∃ r, f p = some r ∧ isComputedOutcome r = true) := by
    intro p hp
    constructor
    · intro hmem
      obtain ⟨p', hp', r, q, hfp', he, hq, hqid⟩ :=
        (mem_computedKeys_map _ f _).mp hmem
      have hw := hwf p' hp'
      rw [hfp'] at hw
      have h2 : p'.id = p.id := by
        rw [← wellFormedOutcome_prop_id hw hq]; exact hqid
      have hpp : p' = p := inj p' hp' p hp h2
      subst hpp
      exact ⟨r, hfp', by simp [isComputedOutcome, he, hq]⟩
    · rintro ⟨r, hfp, hcr⟩
      simp only [isComputedOutcome, Bool.and_eq_true,
        Option.isNone_iff_eq_none, Option.isSome_iff_exists] at hcr
      obtain ⟨he, q, hq⟩ := hcr
      have hw := hwf p hp
      rw [hfp] at hw
      exact (mem_computedKeys_map _ f _).mpr
        ⟨p, hp, r, q, hfp, he, hq, wellFormedOutcome_prop_id hw hq⟩
  have hfail : ∀ p ∈ l.queued_properties,
      (p.id ∈ failedIds (l.queued_properties.map f) ↔
        ∃ r, f p = some r ∧ isComputedOutcome r = false) := by
    intro p hp
    constructor
    · intro hmem
      obtain ⟨p', hp', r, hfp', hcond, hrid⟩ :=
        (mem_failedIds_map _ f _).mp hmem
      have hw := hwf p' hp'
      rw [hfp'] at hw
      have h2 : p'.id = p.id := by
        rw [← wellFormedOutcome_pid hw]; exact hrid
      have hpp : p' = p := inj p' hp' p hp h2
      subst hpp
      exact ⟨r, hfp', (isComputedOutcome_false_iff r).mpr hcond⟩
    · rintro ⟨r, hfp, hcr⟩
      have hw := hwf p hp
      rw [hfp] at hw
      exact (mem_failedIds_map _ f _).mpr
        ⟨p, hp, r, hfp, (isComputedOutcome_false_iff r).mp hcr,
          wellFormedOutcome_pid hw⟩
  have hq_iff : ∀ p ∈ l.queued_properties,
      (inQueuedIds (mergeAll l (l.queued_properties.map f)) p.id = true ↔
        p.id ∉ resolvedIds (l.queued_properties.map f)) := by
    intro p hp
    rw [inQueuedIds_iff]
    constructor
    · rintro ⟨x, hx, hxid⟩
      have hxm := (mergeAll_mem_queued _ l x).mp hx
      exact hxid ▸ hxm.2
    · intro hnot
      exact ⟨p, (mergeAll_mem_queued _ l p).mpr ⟨hp, hnot⟩, rfl⟩
  have hest_iff : ∀ p ∈ l.queued_properties,
      (hasKey (mergeAll l (l.queued_properties.map f)).estimated_properties
          p.id = true ↔
        p.id ∈ computedKeys (l.queued_properties.map f)) := by
    intro p hp
    rw [mergeAll_hasKey_estimated]
    simp [(hfresh p hp).1]
  have hunsucc_iff : ∀ p ∈ l.queued_properties,
      (hasKey
          (mergeAll l (l.queued_properties.map f)).unsuccessful_properties
          p.id = true ↔
        p.id ∈ failedIds (l.queued_properties.map f)) := by
    intro p hp
    rw [mergeAll_hasKey_unsuccessful]
    simp [(hfresh p hp).2]
  constructor
  · intro p hp
    cases hfp : f p with
    | none =>
      have h1 : inQueuedIds (mergeAll l (l.queued_properties.map f)) p.id
          = true :=
        (hq_iff p hp).mpr (fun hmem => (hres p hp).mp hmem hfp)
      have h2 : hasKey
          (mergeAll l (l.queued_properties.map f)).estimated_properties p.id
          = false := by
        apply bfalse
        intro ht
        obtain ⟨r, hr, _⟩ := (hcomp p hp).mp ((hest_iff p hp).mp ht)
        rw [hfp] at hr
        exact Option.noConfusion hr
      have h3 : hasKey
          (mergeAll l (l.queued_properties.map f)).unsuccessful_properties
          p.id = false := by
        apply bfalse
        intro ht
        obtain ⟨r, hr, _⟩ := (hfail p hp).mp ((hunsucc_iff p hp).mp ht)
        rw [hfp] at hr
        exact Option.noConfusion hr
      simp [resolvedCorrectly, h1, h2, h3]
    | some r =>
      have hmemr : p.id ∈ resolvedIds (l.queued_properties.map f) :=
        (hres p hp).mpr (by rw [hfp]; simp)
      have h1 : inQueuedIds (mergeAll l (l.queued_properties.map f)) p.id
          = false :=
        bfalse _ (fun ht => (hq_iff p hp).mp ht hmemr)
      by_cases hcr : isComputedOutcome r = true
      · have h2 : hasKey
            (mergeAll l (l.queued_properties.map f)).estimated_properties
            p.id = true :=
          (hest_iff p hp).mpr ((hcomp p hp).mpr ⟨r, hfp, hcr⟩)
        have h3 : hasKey
            (mergeAll l (l.queued_properties.map f)).unsuccessful_properties
            p.id = false := by
          apply bfalse
          intro ht
          obtain ⟨r', hr', hcr'⟩ :=
            (hfail p hp).mp ((hunsucc_iff p hp).mp ht)
          rw [hfp] at hr'
          rw [← Option.some.inj hr'] at hcr'
          rw [hcr] at hcr'
          exact Bool.noConfusion hcr'
        simp [resolvedCorrectly, h1, h2, h3, hcr]
      · have hcrf : isComputedOutcome r = false := bfalse _ hcr
        have h3 : hasKey
            (mergeAll l (l.queued_properties.map f)).unsuccessful_properties
            p.id = true :=
          (hunsucc_iff p hp).mpr ((hfail p hp).mpr ⟨r, hfp, hcrf⟩)
        have h2 : hasKey
            (mergeAll l (l.queued_properties.map f)).estimated_properties
            p.id = false := by
          apply bfalse
          intro ht
          obtain ⟨r', hr', hcr'⟩ :=
            (hcomp p hp).mp ((hest_iff p hp).mp ht)
          rw [hfp] at hr'
          rw [← Option.some.inj hr'] at hcr'
          rw [hcrf] at hcr'
          exact Bool.noConfusion hcr'
        simp [resolvedCorrectly, h1, h2, h3, hcrf]
  · rw [keysDisjoint_iff]
    intro k hk
    apply bfalse
    intro hu
    have hk2 := (mergeAll_hasKey_estimated _ l k).mp hk
    have hu2 := (mergeAll_hasKey_unsuccessful _ l k).mp hu
    rcases hk2 with hk2 | hk2
    · rcases hu2 with hu2 | hu2
      · have hfs := (keysDisjoint_iff _ _).mp hdisj k hk2
        rw [hfs] at hu2
        exact Bool.noConfusion hu2
      · obtain ⟨p', hp', r, hfp', _, hrid⟩ :=
          (mem_failedIds_map _ f _).mp hu2
        have hw := hwf p' hp'
        rw [hfp'] at hw
        have hkid : k = p'.id := by
          rw [← hrid, wellFormedOutcome_pid hw]
        rw [hkid] at hk2
        rw [(hfresh p' hp').1] at hk2
        exact Bool.noConfusion hk2
    · obtain ⟨p', hp', r, q, hfp', he, hq, hqid⟩ :=
        (mem_computedKeys_map _ f _).mp hk2
      have hw := hwf p' hp'
      rw [hfp'] at hw
      have hkid : k = p'.id := by
        rw [← hqid, wellFormedOutcome_prop_id hw hq]
      rcases hu2 with hu2 | hu2
      · rw [hkid] at hu2
        rw [(hfresh p' hp').2] at hu2
        exact Bool.noConfusion hu2
      · obtain ⟨p'', hp'', r'', hfp'', hcond'', hrid''⟩ :=
          (mem_failedIds_map _ f _).mp hu2
        have hw'' := hwf p'' hp''
        rw [hfp''] at hw''
        have hkid'' : k = p''.id := by
          rw [← hrid'', wellFormedOutcome_pid hw'']
        have hpp : p'' = p' := by
          apply inj p'' hp'' p' hp'
          rw [← hkid'', ← hkid]
        rw [hpp] at hfp''
        rw [hfp'] at hfp''
        have hrr : r = r'' := Option.some.inj hfp''
        rw [← hrr] at hcond''
        rcases hcond'' with hc | hc
        · exact hc he
        · rw [hq] at hc
          exact Option.noConfusion hc

theorem processOutput_snd (l : PropertyEstimatorServerData)
    (out : CalculationLayerResult) :
    (processOutput l (some out)).2 =
      (match out.data_to_store, out.calculated_property with
        | some datas, some _ =>
            datas.map (fun d =>
              let d2 := assignForceField l.force_field_id d
              CallbackEvent.storeCall d2.substance.identifier d2)
        | _, _ => []) ++
      (if (l.queued_properties.filter
            (fun x => x.id == out.property_id)).length ≠ 1 then
          [CallbackEvent.idConflictLogged out.property_id]
        else []) := by
  cases he : out.calculation_error <;> cases hp : out.calculated_property <;>
    cases hd : out.data_to_store <;> simp [processOutput, he, hp, hd]

/-- The caller-supplied callback is invoked exactly once per
`callback_wrapper` run. -/
theorem callback_wrapper_countP (l : PropertyEstimatorServerData)
    (rs : List (Option CalculationLayerResult)) :
    (callback_wrapper l rs).2.countP isCallbackInvoked = 1 := by
  rw [callback_wrapper_trace, List.countP_append]
  have h0 : (processOutputs l rs).2.countP isCallbackInvoked = 0 :=
    List.countP_eq_zero.mpr
      (fun e he => by simp [processOutputs_trace_no_callback rs l e he])
  simp [h0, isCallbackInvoked, List.countP_cons]

/-- The last event of a `callback_wrapper` run is the callback invocation,
carrying the fully merged ledger. -/
theorem callback_wrapper_getLast (l : PropertyEstimatorServerData)
    (rs : List (Option CalculationLayerResult)) :
    (callback_wrapper l rs).2.getLast? =
      some (CallbackEvent.callbackInvoked (mergeAll l rs)) := by
  rw [callback_wrapper_trace]
  simp [List.getLast?_append]

/-- A merge iteration calls the storage backend iff the output carries a
calculated property and a non-empty list of data to store. -/
theorem any_store_iff (l : PropertyEstimatorServerData)
    (out : CalculationLayerResult) :
    (processOutput l (some out)).2.any isStoreCall = true ↔
      (out.calculated_property ≠ none ∧
        ∃ ds, out.data_to_store = some ds ∧ ds ≠ []) := by
  rw [processOutput_snd, List.any_append]
  have hlog : (if (l.queued_properties.filter
        (fun x => x.id == out.property_id)).length ≠ 1 then
      [CallbackEvent.idConflictLogged out.property_id]
    else []).any isStoreCall = false := by
    by_cases hc : (l.queued_properties.filter
        (fun x => x.id == out.property_id)).length ≠ 1 <;>
      simp [hc, isStoreCall]
  rw [hlog]
  cases hd : out.data_to_store with
  | none => cases hp : out.calculated_property <;> simp [hp]
  | some ds =>
    cases hp : out.calculated_property with
    | none => simp
    | some q =>
      cases ds with
      | nil => simp
      | cons d ds2 => simp [isStoreCall]

/-- C2: `callback_wrapper` invokes the caller-supplied callback exactly
once, with the fully merged ledger, strictly after every outcome of the
batch has been merged (the callback invocation is the final event of the
trace); in synchronous mode `_await_results` runs it inline, so the call
returns only after the callback has executed and the returned ledger is
already updated; in asynchronous mode the same trace is the pending
execution registered on the barrier future. -/
theorem await_results_callback_exactly_once
    (data_model : PropertyEstimatorServerData)
    (results : List (Option CalculationLayerResult)) :
    await_results data_model results true =
      AwaitOutcome.completed (mergeAll data_model results)
        ((processOutputs data_model results).2 ++
          [CallbackEvent.callbackInvoked (mergeAll data_model results)]) ∧
    (callback_wrapper data_model results).2.countP isCallbackInvoked = 1 ∧
    (∀ e ∈ (processOutputs data_model results).2,
      isCallbackInvoked e = false) ∧
    (callback_wrapper data_model results).2.getLast? =
      some (CallbackEvent.callbackInvoked (mergeAll data_model results)) ∧
    await_results data_model results false =
      AwaitOutcome.callbackRegistered
        (callback_wrapper data_model results).2 := by
  refine ⟨?_, callback_wrapper_countP data_model results,
    processOutputs_trace_no_callback results data_model,
    callback_wrapper_getLast data_model results, rfl⟩
  simp [await_results, callback_wrapper_fst, callback_wrapper_trace]

/-- C4: a merge iteration makes a storage-backend call iff the outcome
carries both a successfully calculated property and a non-empty list of
artifacts; in particular a Failed outcome (no calculated property) never
persists anything. -/
theorem store_only_on_success (l : PropertyEstimatorServerData)
    (out : CalculationLayerResult) :
    (processOutput l (some out)).2.any isStoreCall = true ↔
      (out.calculated_property ≠ none ∧
        ∃ ds, out.data_to_store = some ds ∧ ds ≠ []) :=
  any_store_iff l out

/-- C5: merging a Not-applicable outcome (a `None` entry in the result
list) mutates none of the ledger's queued, estimated or unsuccessful
collections, and makes no storage or logging call at all. -/
theorem not_applicable_frame (l : PropertyEstimatorServerData) :
    (processOutput l none).1.queued_properties = l.queued_properties ∧
    (processOutput l none).1.estimated_properties =
      l.estimated_properties ∧
    (processOutput l none).1.unsuccessful_properties =
      l.unsuccessful_properties ∧
    (processOutput l none).2 = [] := by
  simp [processOutput]

theorem processOutput_queued_single_match (l : PropertyEstimatorServerData)
    (out : CalculationLayerResult) (m : PhysicalProperty)
    (hm : l.queued_properties.filter (fun x => x.id == out.property_id)
      = [m]) :
    (processOutput l (some out)).1.queued_properties =
      l.queued_properties.erase m := by
  rw [processOutput_queued]
  exact filter_not_eq_erase_of_filter_singleton _ _ m hm

/-- C3 counterexample: a Computed outcome whose property id matches
exactly one queued entry is recorded into estimated under the calculated
property's own id (`return_object.id`, line 127), not under the outcome's
`property_id`: with `property_id = "p1"` and a calculated property whose
id is `"p2"`, the estimated map gains the key `"p2"` and not `"p1"`. -/
theorem single_match_recorded_counterexample :
    (c3Ledger.queued_properties.filter
        (fun x => x.id == c3Out.property_id)).length = 1 ∧
    c3Out.calculation_error = none ∧
    c3Out.calculated_property = some { id := "p2", value := 5 } ∧
    hasKey (processOutput c3Ledger (some c3Out)).1.estimated_properties
      c3Out.property_id = false ∧
    hasKey (processOutput c3Ledger (some c3Out)).1.estimated_properties
      "p2" = true := by
  decide

/-- C3 (amended): for an outcome whose property id matches exactly one
queued entry, the merge removes that entry from queued exactly once, and
records the resolved value into estimated keyed by the calculated
property's own id (for a Computed outcome) or into unsuccessful keyed by
the outcome's property id (for a Failed outcome). -/
theorem single_match_removed_and_recorded (l : PropertyEstimatorServerData)
    (out : CalculationLayerResult) (m : PhysicalProperty)
    (hm : l.queued_properties.filter (fun x => x.id == out.property_id)
      = [m]) :
    (processOutput l (some out)).1.queued_properties =
      l.queued_properties.erase m ∧
    (∀ q, out.calculation_error = none → out.calculated_property = some q →
      dictLookup (processOutput l (some out)).1.estimated_properties q.id =
        some q) ∧
    ((out.calculation_error ≠ none ∨ out.calculated_property = none) →
      dictLookup (processOutput l (some out)).1.unsuccessful_properties
        out.property_id = some out.calculation_error) := by
  refine ⟨processOutput_queued_single_match l out m hm, ?_, ?_⟩
  · intro q he hq
    rw [processOutput_estimated_computed l out q he hq]
    exact dictLookup_dictInsert_self _ _ _
  · intro h
    rw [processOutput_unsuccessful_not_computed l out h]
    exact dictLookup_dictInsert_self _ _ _

theorem single_match_removed_and_recorded_witness :
    (processOutput c3Ledger (some c3Out)).1.queued_properties = [] ∧
    dictLookup (processOutput c3Ledger (some c3Out)).1.estimated_properties
      "p2" = some { id := "p2", value := 5 } := by
  have h := single_match_removed_and_recorded c3Ledger c3Out
    { id := "p1", value := 1 } (by decide)
  refine ⟨?_, ?_⟩
  · rw [h.1]; decide
  · exact h.2.1 { id := "p2", value := 5 } rfl rfl

/-- C6: for a Computed outcome carrying artifacts, the storage calls of
the merge iteration are exactly one per artifact, keyed by the artifact's
substance identifier, storing the artifact after `assignForceField`:
an artifact whose force-field id is unset is assigned the ledger's
`force_field_id`, one already set is stored unchanged, and the substance
is never altered. -/
theorem artifacts_stored_with_force_field (l : PropertyEstimatorServerData)
    (out : CalculationLayerResult) (ds : List StoredSimulationData)
    (hd : out.data_to_store = some ds)
    (hp : out.calculated_property ≠ none) :
    (processOutput l (some out)).2.filter isStoreCall =
      ds.map (fun d => CallbackEvent.storeCall
        (assignForceField l.force_field_id d).substance.identifier
        (assignForceField l.force_field_id d)) ∧
    (∀ d, (assignForceField l.force_field_id d).substance = d.substance) ∧
    (∀ d ∈ ds, d.force_field_id = none →
      (assignForceField l.force_field_id d).force_field_id =
        some l.force_field_id) ∧
    (∀ d ∈ ds, d.force_field_id ≠ none →
      assignForceField l.force_field_id d = d) := by
  obtain ⟨q, hq⟩ := Option.ne_none_iff_exists'.mp hp
  refine ⟨?_, ?_, ?_, ?_⟩
  · rw [processOutput_snd, List.filter_append, hd, hq]
    have hstore : (ds.map (fun d =>
        let d2 := assignForceField l.force_field_id d
        CallbackEvent.storeCall d2.substance.identifier d2)).filter
          isStoreCall =
        ds.map (fun d =>
          let d2 := assignForceField l.force_field_id d
          CallbackEvent.storeCall d2.substance.identifier d2) := by
      apply List.filter_eq_self.mpr
      intro e he
      obtain ⟨d, _, hde⟩ := List.mem_map.mp he
      rw [← hde]
      rfl
    have hlog : (if (l.queued_properties.filter
          (fun x => x.id == out.property_id)).length ≠ 1 then
        [CallbackEvent.idConflictLogged out.property_id]
      else []).filter isStoreCall = [] := by
      by_cases hc : (l.queued_properties.filter
          (fun x => x.id == out.property_id)).length ≠ 1 <;>
        simp [hc, isStoreCall]
    rw [hstore, hlog, List.append_nil]
  · intro d
    unfold assignForceField
    split <;> rfl
  · intro d _ hdf
    simp [assignForceField, hdf]
  · intro d _ hdf
    simp [assignForceField, hdf]

theorem artifacts_stored_with_force_field_witness :
    (processOutput c6Ledger (some c6Out)).2.filter isStoreCall =
      [CallbackEvent.storeCall "sub-1"
        { substance := { identifier := "sub-1" },
          force_field_id := some "ff-42" }] := by
  have h := artifacts_stored_with_force_field c6Ledger c6Out
    [{ substance := { identifier := "sub-1" }, force_field_id := none }]
    rfl (by decide)
  rw [h.1]
  decide

theorem processOutput_logs_conflict (l : PropertyEstimatorServerData)
    (out : CalculationLayerResult)
    (h : (l.queued_properties.filter
        (fun x => x.id == out.property_id)).length ≠ 1) :
    CallbackEvent.idConflictLogged out.property_id ∈
      (processOutput l (some out)).2 := by
  rw [processOutput_snd]
  apply List.mem_append.mpr
  exact Or.inr (by simp [h])

/-- C7: an outcome whose property id matches zero or more than one queued
entry is logged as an id conflict, the remaining outcomes are still merged
and the completion callback still fires exactly once, as the final event,
with the ledger merged over the whole batch — the batch is never
aborted. -/
theorem id_conflict_nonfatal (l : PropertyEstimatorServerData)
    (rs₁ rs₂ : List (Option CalculationLayerResult))
    (out : CalculationLayerResult)
    (h : ((mergeAll l rs₁).queued_properties.filter
        (fun x => x.id == out.property_id)).length ≠ 1) :
    CallbackEvent.idConflictLogged out.property_id ∈
      (callback_wrapper l (rs₁ ++ some out :: rs₂)).2 ∧
    (callback_wrapper l (rs₁ ++ some out :: rs₂)).2.countP
      isCallbackInvoked = 1 ∧
    (callback_wrapper l (rs₁ ++ some out :: rs₂)).2.getLast? =
      some (CallbackEvent.callbackInvoked
        (mergeAll l (rs₁ ++ some out :: rs₂))) := by
  refine ⟨?_, callback_wrapper_countP l (rs₁ ++ some out :: rs₂),
    callback_wrapper_getLast l (rs₁ ++ some out :: rs₂)⟩
  rw [callback_wrapper_trace]
  apply List.mem_append.mpr
  apply Or.inl
  rw [processOutputs_append]
  apply List.mem_append.mpr
  apply Or.inr
  rw [processOutputs_cons]
  apply List.mem_append.mpr
  exact Or.inl (processOutput_logs_conflict (mergeAll l rs₁) out h)

theorem id_conflict_nonfatal_witness :
    CallbackEvent.idConflictLogged "p9" ∈
      (callback_wrapper c7Ledger [some c7Out]).2 ∧
    (callback_wrapper c7Ledger [some c7Out]).2.countP
      isCallbackInvoked = 1 := by
  have h := id_conflict_nonfatal c7Ledger [] [] c7Out (by decide)
  exact ⟨h.1, h.2.1⟩

/-- C8: registering a layer class under a name that is already bound
raises the duplicate-registration `ValueError` and leaves the registry —
hence the first registration — unchanged; registering under a fresh name
raises nothing and binds the class under its name. -/
theorem register_layer_duplicate_and_fresh
    (layers : List (String × CalculationLayerClass))
    (cls : CalculationLayerClass) :
    (hasKey layers cls.name = true →
      (register_calculation_layer layers cls).1 = layers ∧
      (register_calculation_layer layers cls).2 =
        some ("The " ++ cls.name ++ " layer is already registered.") ∧
      dictLookup (register_calculation_layer layers cls).1 cls.name =
        dictLookup layers cls.name) ∧
    (hasKey layers cls.name = false →
      (register_calculation_layer layers cls).2 = none ∧
      dictLookup (register_calculation_layer layers cls).1 cls.name =
        some cls) := by
  constructor
  · intro h
    simp [register_calculation_layer, h]
  · intro h
    simp [register_calculation_layer, h, dictLookup_dictInsert_self]

theorem register_layer_duplicate_and_fresh_witness :
    ((register_calculation_layer
        [("SimulationLayer", { name := "SimulationLayer", tag := 0 })]
        { name := "SimulationLayer", tag := 1 }).1 =
      [("SimulationLayer", { name := "SimulationLayer", tag := 0 })] ∧
      (register_calculation_layer
        [("SimulationLayer", { name := "SimulationLayer", tag := 0 })]
        { name := "SimulationLayer", tag := 1 }).2 =
        some "The SimulationLayer layer is already registered." ∧
      dictLookup (register_calculation_layer
        [("SimulationLayer", { name := "SimulationLayer", tag := 0 })]
        { name := "SimulationLayer", tag := 1 }).1 "SimulationLayer" =
        dictLookup
          [("SimulationLayer", { name := "SimulationLayer", tag := 0 })]
          "SimulationLayer") ∧
    ((register_calculation_layer []
        { name := "ReweightingLayer", tag := 2 }).2 = none ∧
      dictLookup (register_calculation_layer []
        { name := "ReweightingLayer", tag := 2 }).1 "ReweightingLayer" =
        some { name := "ReweightingLayer", tag := 2 }) := by
  constructor
  · exact (register_layer_duplicate_and_fresh
      [("SimulationLayer", { name := "SimulationLayer", tag := 0 })]
      { name := "SimulationLayer", tag := 1 }).1 (by decide)
  · exact (register_layer_duplicate_and_fresh []
      { name := "ReweightingLayer", tag := 2 }).2 (by decide)

/-- C9: when an outcome carries both a calculation error and a calculated
property, the error wins the `return_object` choice (line 99) and is the
value recorded into unsuccessful under the outcome's property id, the
estimated map is untouched — yet the artifacts are still persisted,
because the guard of line 105 tests only that `calculated_property` is
not `None`. -/
theorem error_recorded_but_artifacts_persisted
    (l : PropertyEstimatorServerData) (out : CalculationLayerResult)
    (e : PropertyEstimatorException) (q : PhysicalProperty)
    (ds : List StoredSimulationData)
    (he : out.calculation_error = some e)
    (hq : out.calculated_property = some q)
    (hd : out.data_to_store = some ds) (hne : ds ≠ []) :
    dictLookup (processOutput l (some out)).1.unsuccessful_properties
      out.property_id = some (some e) ∧
    (processOutput l (some out)).1.estimated_properties =
      l.estimated_properties ∧
    (processOutput l (some out)).2.any isStoreCall = true := by
  refine ⟨?_, ?_, ?_⟩
  · have hu := processOutput_unsuccessful_not_computed l out
      (Or.inl (by simp [he]))
    rw [he] at hu
    rw [hu]
    exact dictLookup_dictInsert_self _ _ _
  · exact processOutput_estimated_not_computed l out
      (Or.inl (by simp [he]))
  · exact (any_store_iff l out).mpr ⟨by simp [hq], ds, hd, hne⟩

theorem error_recorded_but_artifacts_persisted_witness :
    dictLookup
      (processOutput c6Ledger (some c9Out)).1.unsuccessful_properties
      "p1" = some (some { message := "late failure" }) ∧
    (processOutput c6Ledger (some c9Out)).2.any isStoreCall = true := by
  have h := error_recorded_but_artifacts_persisted c6Ledger c9Out
    { message := "late failure" } { id := "p1", value := 5 }
    [{ substance := { identifier := "sub-1" }, force_field_id := none }]
    rfl rfl rfl (by decide)
  exact ⟨h.1, h.2.2⟩

/-- C10: an outcome whose property id matches no queued entry removes
nothing from queued, yet its value is still recorded — into estimated
keyed by the calculated property's id for a Computed outcome, or into
unsuccessful keyed by the outcome's property id otherwise — so an id can
enter estimated or unsuccessful without ever having been in queued. -/
theorem zero_match_still_records (l : PropertyEstimatorServerData)
    (out : CalculationLayerResult)
    (hz : l.queued_properties.filter
      (fun x => x.id == out.property_id) = []) :
    (processOutput l (some out)).1.queued_properties =
      l.queued_properties ∧
    (∀ q, out.calculation_error = none → out.calculated_property = some q →
      dictLookup (processOutput l (some out)).1.estimated_properties q.id =
        some q) ∧
    ((out.calculation_error ≠ none ∨ out.calculated_property = none) →
      dictLookup (processOutput l (some out)).1.unsuccessful_properties
        out.property_id = some out.calculation_error) := by
  refine ⟨?_, ?_, ?_⟩
  · rw [processOutput_queued]
    apply List.filter_eq_self.mpr
    intro a ha
    have hna := List.filter_eq_nil_iff.mp hz a ha
    simpa using hna
  · intro q he hq
    rw [processOutput_estimated_computed l out q he hq]
    exact dictLookup_dictInsert_self _ _ _
  · intro h
    rw [processOutput_unsuccessful_not_computed l out h]
    exact dictLookup_dictInsert_self _ _ _

theorem zero_match_still_records_witness :
    (processOutput c10Ledger (some c10Out)).1.queued_properties =
      c10Ledger.queued_properties ∧
    dictLookup (processOutput c10Ledger (some c10Out)).1.unsuccessful_properties
      "p9" = some (some { message := "boom" }) := by
  have h := zero_match_still_records c10Ledger c10Out (by decide)
  exact ⟨h.1, h.2.2 (Or.inl (by decide))⟩

theorem merged_batch_partition_witness :
    (∀ p ∈ c1Ledger.queued_properties,
      resolvedCorrectly
        (mergeAll c1Ledger (c1Ledger.queued_properties.map c1Outcomes))
        p (c1Outcomes p) = true) ∧
    keysDisjoint
      (mergeAll c1Ledger
        (c1Ledger.queued_properties.map c1Outcomes)).estimated_properties
      (mergeAll c1Ledger
        (c1Ledger.queued_properties.map c1Outcomes)).unsuccessful_properties
      = true :=
  merged_batch_partition c1Ledger c1Outcomes (by decide) (by decide)
    (by decide) (by decide)
